import Mathlib

/-!
Shallow embedding of `src/lex.c` from the jack-vm-compiler repository:
the lexer/validator that turns a textual stack-machine program into a
typed instruction list (`scan_stream`), together with the line reader
(`nextline`) and the list teardown (`free_token_list`).

The header `lex.h` is not part of the sources; the enumerations it
declares are modelled from the spec's data model (§3), with the usual C
convention that the first enumerator of an unvalued enum is 0.
-/

namespace Lex

/-- Modelled from the spec: `CommandType` is declared in the missing `lex.h`.
Constructors follow the spec's CommandKind enumeration, `NONE` being the
sentinel for an unrecognized command word. The C code tests
`cmdt & (POP | PUSH)`; per the spec (§4.3) range validation applies exactly
when the kind is Push or Pop, so that bitmask test is modelled as
membership in `{PUSH, POP}`. -/
inductive CommandType
  | NONE | PUSH | POP | LABEL | GOTO | IF | FUNCTION | RETURN | CALL | ARITHMETIC
deriving DecidableEq, Repr

/-- Modelled from the spec: `Memory` (MemorySegment) is declared in the
missing `lex.h`. -/
inductive Memory
  | ARGUMENT | LOCAL | STATIC | CONSTANT | THIS | THAT | POINTER | TEMP
deriving DecidableEq, Repr

/-- Modelled from the spec: `RType` (Operation) is declared in the missing
`lex.h`. -/
inductive RType
  | ADD | SUB | NEG | EQ | GT | LT | AND | OR | NOT
deriving DecidableEq, Repr

/-- Modelled from the spec: `CmdArgType` (ArgumentKind) is declared in the
missing `lex.h`; the spec lists `None` first, so `ARG_NONE` is the zero
value produced by C's `{ 0 }` initializer in `cmd_fmt`. -/
inductive CmdArgType
  | ARG_NONE | ARG_CMD | ARG_MEMORY | ARG_NUM | ARG_NAME
deriving DecidableEq, Repr

/-- Modelled from the spec: `CmdArg` is the tagged union (ArgumentValue)
declared in the missing `lex.h`. `uninit` stands for an uninitialized
(`malloc`ed, never written) union slot. -/
inductive CmdArg
  | op (r : RType)
  | mem (m : Memory)
  | num (n : Int)
  | name (s : String)
  | uninit
deriving DecidableEq, Repr

/-- One node of the instruction list (`TokenList` in `lex.h`): command kind,
stored argument count (an `int` in C, so it can be negative), and the
argument array. The `next` pointer is modelled by placing nodes in a
`List`. -/
structure TokenList where
  cmd : CommandType
  argc : Int
  argv : List CmdArg
deriving DecidableEq, Repr

/-- Diagnostics written to `stderr`, one constructor per `fprintf` site of
`scan_stream`. -/
inductive Diag
  | unknownCommand (w : String)
  | missingToken (line : String)
  | writeToConstant
  | invalidSegment (w : String)
  | numberParse (w : String)
  | numberOutOfRange (n : Int)
deriving DecidableEq, Repr

/-- Process state threaded through the scan: the accumulated `failure` flag
(`int failure = 0` in `scan_stream`) and whether `errno` currently holds
`ERANGE` (the code never resets `errno`, so the flag is sticky). -/
structure St where
  failure : Bool
  errnoRange : Bool
deriving DecidableEq, Repr

/-- Initial scan state: no failure, `errno` clear. -/
def st0 : St := ⟨false, false⟩

/-- The `command[]` string-to-kind table. -/
def command : List (String × CommandType) :=
  [ ("push", .PUSH), ("pop", .POP), ("label", .LABEL), ("goto", .GOTO),
    ("if-goto", .IF), ("function", .FUNCTION), ("return", .RETURN),
    ("call", .CALL), ("add", .ARITHMETIC), ("sub", .ARITHMETIC),
    ("neg", .ARITHMETIC), ("eq", .ARITHMETIC), ("gt", .ARITHMETIC),
    ("lt", .ARITHMETIC), ("and", .ARITHMETIC), ("or", .ARITHMETIC),
    ("not", .ARITHMETIC) ]

/-- The `memory[]` segment table. -/
def memory : List (String × Memory) :=
  [ ("argument", .ARGUMENT), ("local", .LOCAL), ("static", .STATIC),
    ("constant", .CONSTANT), ("this", .THIS), ("that", .THAT),
    ("pointer", .POINTER), ("temp", .TEMP) ]

/-- The `arithmetic[]` mnemonic table. -/
def arithmetic : List (String × RType) :=
  [ ("add", .ADD), ("sub", .SUB), ("neg", .NEG), ("eq", .EQ), ("gt", .GT),
    ("lt", .LT), ("and", .AND), ("or", .OR), ("not", .NOT) ]

/-- `cmdtype`: scans the whole table without breaking, so the last matching
entry wins (keys are distinct, so this equals first-match). -/
def cmdtype (cmd : String) : CommandType :=
  command.foldl (fun r kv => if kv.1 = cmd then kv.2 else r) .NONE

/-- Segment lookup inside the `ARG_MEMORY` case: first match (the C loop
breaks on a hit). -/
def memLookup (w : String) : Option Memory :=
  (memory.find? (fun kv => kv.1 = w)).map (fun kv => kv.2)

/-- Mnemonic lookup inside the `ARG_CMD` case: first match. -/
def arithLookup (w : String) : Option RType :=
  (arithmetic.find? (fun kv => kv.1 = w)).map (fun kv => kv.2)

/-- The `cmd_fmt` table: arity (including the command word's own slot) and
the three argument-kind slots; missing initializers are zero (`ARG_NONE`). -/
structure CommandFormat where
  nargs : Nat
  arg : List CmdArgType
deriving DecidableEq, Repr

/-- The `cmd_fmt[]` rows exactly as initialized in the source; `{ 0 }` rows
zero-fill, giving `nargs = 0` and `ARG_NONE` slots. -/
def cmd_fmt : CommandType → CommandFormat
  | .NONE       => ⟨0, [.ARG_NONE, .ARG_NONE, .ARG_NONE]⟩
  | .ARITHMETIC => ⟨1, [.ARG_CMD, .ARG_NONE, .ARG_NONE]⟩
  | .PUSH       => ⟨3, [.ARG_NONE, .ARG_MEMORY, .ARG_NUM]⟩
  | .POP        => ⟨3, [.ARG_NONE, .ARG_MEMORY, .ARG_NUM]⟩
  | .LABEL      => ⟨2, [.ARG_NONE, .ARG_NAME, .ARG_NONE]⟩
  | .GOTO       => ⟨2, [.ARG_NONE, .ARG_NAME, .ARG_NONE]⟩
  | .IF         => ⟨2, [.ARG_NONE, .ARG_NAME, .ARG_NONE]⟩
  | .FUNCTION   => ⟨3, [.ARG_NONE, .ARG_NAME, .ARG_NUM]⟩
  | .CALL       => ⟨3, [.ARG_NONE, .ARG_NAME, .ARG_NUM]⟩
  | .RETURN     => ⟨0, [.ARG_NONE, .ARG_NONE, .ARG_NONE]⟩

/-- C-locale `isspace`. -/
def isspaceC (c : Char) : Bool :=
  c = ' ' || c = '\t' || c = '\n' || c = '\x0b' || c = '\x0c' || c = '\r'

/-- `strtok` delimiters of `scan_stream`: space and tab. -/
def isDelim (c : Char) : Bool := c = ' ' || c = '\t'

/-- Successive `strtok(line, " \t")` calls: split into the maximal non-empty
delimiter-free words of the line, in order. -/
def tokenizeAux : List Char → List Char → List String
  | [], acc => if acc = [] then [] else [String.mk acc.reverse]
  | c :: rest, acc =>
    if isDelim c then
      if acc = [] then tokenizeAux rest []
      else String.mk acc.reverse :: tokenizeAux rest []
    else tokenizeAux rest (c :: acc)

/-- The words `strtok` yields for a given line. -/
def wordsOf (line : String) : List String := tokenizeAux line.toList []

/-- `LLONG_MAX`. -/
def llmax : Int := 9223372036854775807

/-- `LLONG_MIN`. -/
def llmin : Int := -9223372036854775808

/-- Digit-string value accumulator. -/
def digitsVal (ds : List Char) : Int :=
  ds.foldl (fun a c => a * 10 + (Int.ofNat (c.toNat - 48))) 0

/-- `strtoll(w, &end, 10)`: result is `(value, consumed, erange)` where
`consumed` is false exactly when `end == nword` (no conversion), and
`erange` reports overflow, in which case the value is clamped to
`LLONG_MAX`/`LLONG_MIN` and `errno` becomes `ERANGE`. -/
def strtoll10 (w : String) : Int × Bool × Bool :=
  let s := w.toList.dropWhile isspaceC
  let signed : Int × List Char :=
    match s with
    | '-' :: r => (-1, r)
    | '+' :: r => (1, r)
    | _ => (1, s)
  let ds := signed.2.takeWhile Char.isDigit
  if ds = [] then (0, false, false)
  else
    let v := signed.1 * digitsVal ds
    if v > llmax then (llmax, true, true)
    else if v < llmin then (llmin, true, true)
    else (v, true, false)

/-- Truncation of the parsed `long long` to the stored `int` field
(`argv[argn].num = (int) num`), modelled as 32-bit two's-complement wrap. -/
def toInt32 (n : Int) : Int :=
  let m := n % 4294967296
  if m ≥ 2147483648 then m - 4294967296 else m

/-- Reading `argv[i]`; out-of-range reads (which C leaves indeterminate)
yield the uninitialized marker. -/
def argSlot (argv : List CmdArg) (i : Nat) : CmdArg := argv.getD i .uninit

/-- One iteration of the argument loop of `scan_stream` (the body of
`for (int i = 1; i < fmt.nargs; ++i, ++argn)`): given the slot kind and the
next `strtok` word (or `none` at end of line), update the state and the
argument array and emit this slot's diagnostics in output order. -/
def scanArgSlot (cmdt : CommandType) (line : String) (k : CmdArgType)
    (st : St) (argv : List CmdArg) (argn : Nat) (nword : Option String) :
    St × List CmdArg × List Diag :=
  match nword with
  | none => (⟨true, st.errnoRange⟩, argv, [.missingToken line])
  | some w =>
    match k with
    | .ARG_MEMORY =>
      let found := memLookup w
      let argv' :=
        match found with
        | some m => argv.set argn (.mem m)
        | none => argv
      -- The write-to-constant check reads argv[argn].mem; when the lookup
      -- failed that slot is indeterminate in C, modelled here as `uninit`
      -- (which is not CONSTANT).
      let constBad : Bool := decide (cmdt = .POP ∧ argSlot argv' argn = CmdArg.mem .CONSTANT)
      let segBad : Bool := decide (found = none)
      (⟨st.failure || constBad || segBad, st.errnoRange⟩, argv',
        (if constBad then [Diag.writeToConstant] else []) ++
        (if segBad then [Diag.invalidSegment w] else []))
    | .ARG_NUM =>
      let r := strtoll10 w
      -- `errno` is never reset, so a previous ERANGE is still visible here.
      let errno' := st.errnoRange || r.2.2
      let parseBad : Bool := errno' || !r.2.1
      -- Segment-range validation for PUSH/POP reads argv[argn-1].mem;
      -- a non-.mem slot there is indeterminate in C and takes the
      -- default (non-TEMP) branch in this model.
      let numInvalid : Bool :=
        if cmdt = .PUSH ∨ cmdt = .POP then
          match argSlot argv (argn - 1) with
          | .mem .TEMP => decide (r.1 < 0 ∨ r.1 > 7)
          | _ => decide (r.1 < 0 ∨ r.1 > 32767)
        else false
      (⟨st.failure || parseBad || numInvalid, errno'⟩,
        argv.set argn (.num (toInt32 r.1)),
        (if parseBad then [Diag.numberParse w] else []) ++
        (if numInvalid then [Diag.numberOutOfRange r.1] else []))
    | .ARG_NAME =>
      -- C allocates strlen(w) bytes and copies strlen(w)+1 (the spec's §9
      -- off-by-one); the stored contents are the word itself.
      (st, argv.set argn (.name w), [])
    | _ => (st, argv, [])

/-- The whole argument loop: one `scanArgSlot` per remaining slot, `argn`
advancing every iteration (the `++argn` in the `for` update also runs on
`continue`). -/
def runSlots (cmdt : CommandType) (line : String) :
    List (CmdArgType × Option String) → St → List CmdArg → Nat →
    St × List CmdArg × List Diag
  | [], st, argv, _ => (st, argv, [])
  | (k, w) :: rest, st, argv, argn =>
    let r1 := scanArgSlot cmdt line k st argv argn w
    let r2 := runSlots cmdt line rest r1.1 r1.2.1 (argn + 1)
    (r2.1, r2.2.1, r1.2.2 ++ r2.2.2)

/-- Starting slot index: 0 when slot 0 is `ARG_NONE` (the command word is
skipped in the output array), 1 otherwise. -/
def initArgn (fmt : CommandFormat) : Nat :=
  if fmt.arg.headD .ARG_NONE = .ARG_NONE then 0 else 1

/-- Stored argument count: `fmt.nargs - 1` in the `ARG_NONE` branch (an
`int`, so `-1` for RETURN's zero-filled row), `fmt.nargs` otherwise. -/
def initArgc (fmt : CommandFormat) : Int :=
  if fmt.arg.headD .ARG_NONE = .ARG_NONE then (fmt.nargs : Int) - 1
  else (fmt.nargs : Int)

/-- The freshly `malloc`ed `argv`, uninitialized except that the `ARG_CMD`
case resolves slot 0 from the command word via the arithmetic table. A
negative byte count (RETURN) makes `malloc` fail and yields a null array,
modelled as the empty list. -/
def initArgv (fmt : CommandFormat) (cmd : String) : List CmdArg :=
  if fmt.arg.headD .ARG_NONE = .ARG_NONE then
    List.replicate ((fmt.nargs : Int) - 1).toNat CmdArg.uninit
  else
    let argv := List.replicate fmt.nargs CmdArg.uninit
    match fmt.arg.headD .ARG_NONE with
    | .ARG_CMD =>
      match arithLookup cmd with
      | some r => argv.set 0 (.op r)
      | none => argv
    | _ => argv

/-- Processing of one tokenized line by the body of `scan_stream`'s while
loop: classify the command word, run the argument loop, and emit the built
node only when the accumulated `failure` flag is still clear
(`if (!failure)` in the source — the flag is global, not per-line). An
empty word list is unreachable from `nextline` (the C would pass NULL to
`cmdtype`); it is modelled as a no-op. -/
def processWords (st : St) (ws : List String) (line : String) :
    St × Option TokenList × List Diag :=
  match ws with
  | [] => (st, none, [])
  | cmd :: args =>
    let cmdt := cmdtype cmd
    if cmdt = CommandType.NONE then (st, none, [Diag.unknownCommand cmd])
    else
      let fmt := cmd_fmt cmdt
      let slots := (List.range (fmt.nargs - 1)).map
        (fun j => (fmt.arg.getD (j + 1) CmdArgType.ARG_NONE, args.get? j))
      let r := runSlots cmdt line slots st (initArgv fmt cmd) (initArgn fmt)
      (r.1,
       if r.1.failure then none else some ⟨cmdt, initArgc fmt, r.2.1⟩,
       r.2.2)

/-- One source line: tokenize, then process. -/
def processLine (st : St) (line : String) : St × Option TokenList × List Diag :=
  processWords st (wordsOf line) line

/-- The while loop of `scan_stream` over the logical lines, threading the
state and appending each produced node at the tail (`prev->next = curr`). -/
def scanLinesAux : St → List String → St × List TokenList × List Diag
  | st, [] => (st, [], [])
  | st, l :: ls =>
    let r1 := processLine st l
    let r2 := scanLinesAux r1.1 ls
    (r2.1, r1.2.1.toList ++ r2.2.1, r1.2.2 ++ r2.2.2)

/-- Observable outcome of `scan_stream`: the instruction list on success,
`fatal` for the `exit(1)` after "Failed to compile", and `diverge` when the
line reader loops forever. -/
inductive ScanResult
  | ok (toks : List TokenList) (diags : List Diag)
  | fatal (diags : List Diag)
  | diverge
deriving DecidableEq, Repr

/-- End of `scan_stream`: if the accumulated flag is set the process exits
with status 1 and the list is never returned. -/
def scanLines (ls : List String) : ScanResult :=
  let r := scanLinesAux st0 ls
  if r.1.failure then .fatal r.2.2 else .ok r.2.1 r.2.2

/-- Result of one call to `nextline`: end of stream, an owned line plus the
rest of the stream, or non-termination. -/
inductive LineRes
  | eof
  | diverge
  | line (l : String) (rest : List Char)
deriving DecidableEq, Repr

/-- The comment skip `while (fgetc(fp) != '\n');`: if the stream ends before
a newline, `fgetc` returns EOF forever and the C loop never exits, modelled
as `none`. -/
def dropComment : List Char → Option (List Char)
  | [] => none
  | c :: rest => if c = '\n' then some rest else dropComment rest

/-- The character-accumulation loop of `nextline`: collect until newline or
end of stream, entering the comment skip at `//`; `none` propagates the
comment skip's divergence. -/
def readChars : List Char → Option (List Char × List Char)
  | [] => some ([], [])
  | c :: rest =>
    if c = '\n' then some ([], rest)
    else if c = '/' then
      match rest with
      | '/' :: rest2 =>
        match dropComment rest2 with
        | none => none
        | some r => some ([], r)
      | _ =>
        match readChars rest with
        | none => none
        | some p => some (c :: p.1, p.2)
    else
      match readChars rest with
      | none => none
      | some p => some (c :: p.1, p.2)

/-- Fuelled form of `nextline`: drop leading whitespace, read one physical
line, and retry on an empty accumulation (blank or comment-only line), as
the C does via recursion. Each retry consumes at least one character, so
`length + 1` fuel is always enough; fuel exhaustion is unreachable. -/
def nextlineFuel : Nat → List Char → LineRes
  | 0, _ => .diverge
  | fuel + 1, s =>
    let s1 := s.dropWhile isspaceC
    match s1 with
    | [] => .eof
    | _ =>
      match readChars s1 with
      | none => .diverge
      | some ([], rest) => nextlineFuel fuel rest
      | some (cs, rest) => .line (String.mk cs) rest

/-- `nextline`: the next logical line of the stream, or end-of-stream, or
divergence (see `dropComment`). -/
def nextline (s : List Char) : LineRes := nextlineFuel (s.length + 1) s

/-- Fuelled collection of all logical lines of a stream. -/
def getLinesFuel : Nat → List Char → Option (List String)
  | 0, _ => none
  | fuel + 1, s =>
    match nextline s with
    | .eof => some []
    | .diverge => none
    | .line l rest =>
      match getLinesFuel fuel rest with
      | none => none
      | some ls => some (l :: ls)

/-- All logical lines `nextline` yields for a stream (`none` when the
reader diverges). -/
def getLines (s : List Char) : Option (List String) :=
  getLinesFuel (s.length + 1) s

/-- The whole of `scan_stream` on a character stream. -/
def scan_stream (input : String) : ScanResult :=
  match getLines input.toList with
  | none => .diverge
  | some ls => scanLines ls

/-- Heap actions of teardown, for the `free_token_list` model: freeing the
`i`-th node, its `argv` array, or the name string in slot `j` of node `i`. -/
inductive FreeOp
  | argvArr (i : Nat)
  | node (i : Nat)
  | nameStr (i : Nat) (j : Nat)
deriving DecidableEq, Repr

/-- `free_token_list` starting at node index `i`: frees `tl->argv`, then the
node, then recurses on `next`. It issues no `free` for the name strings the
`argv` slots point to. -/
def free_token_list : Nat → List TokenList → List FreeOp
  | _, [] => []
  | i, _ :: rest => FreeOp.argvArr i :: FreeOp.node i :: free_token_list (i + 1) rest

/-- Indices of the `argv` slots of a node that own a heap-allocated Name
string. -/
def nameSlots (t : TokenList) : List Nat :=
  (List.range t.argv.length).filter
    (fun j => match argSlot t.argv j with | CmdArg.name _ => true | _ => false)

/-- Which diagnostics set the `failure` flag at their report site: all of
them except the unknown-command one. -/
def flagSetting : Diag → Bool
  | .unknownCommand _ => false
  | _ => true

end Lex

namespace Lex

/-- Reading back a just-written slot inside the array bounds. -/
lemma getD_set_self (l : List CmdArg) (i : Nat) (v : CmdArg) (h : i < l.length) :
    (l.set i v).getD i .uninit = v := by
  induction l generalizing i with
  | nil => simp at h
  | cons a t ih =>
    cases i with
    | zero => simp [List.set, List.getD]
    | succ j =>
      simp only [List.set, List.getD_cons_succ]
      exact ih j (by simpa using h)

/-- Scanning a singleton conditional diagnostic list. -/
lemma any_flag_ite (b : Bool) (d : Diag) :
    (List.any (if b = true then [d] else []) flagSetting) = (b && flagSetting d) := by
  cases b <;> simp

/-- Each slot sets the failure flag exactly when it emits a flag-setting
diagnostic. -/
lemma scanArgSlot_failure (cmdt : CommandType) (line : String) (k : CmdArgType)
    (st : St) (argv : List CmdArg) (argn : Nat) (w : Option String) :
    (scanArgSlot cmdt line k st argv argn w).1.failure =
      (st.failure || (scanArgSlot cmdt line k st argv argn w).2.2.any flagSetting) := by
  cases w with
  | none => simp [scanArgSlot, flagSetting]
  | some w =>
    cases k with
    | ARG_MEMORY =>
      simp only [scanArgSlot, List.any_append]
      split_ifs <;> simp_all [flagSetting]
    | ARG_NUM =>
      simp only [scanArgSlot, List.any_append]
      split_ifs <;> simp_all [flagSetting]
    | ARG_NAME => simp [scanArgSlot]
    | ARG_NONE => simp [scanArgSlot]
    | ARG_CMD => simp [scanArgSlot]

/-- The argument loop sets the failure flag exactly when some slot emitted a
flag-setting diagnostic. -/
lemma runSlots_failure (cmdt : CommandType) (line : String)
    (slots : List (CmdArgType × Option String)) (st : St) (argv : List CmdArg)
    (argn : Nat) :
    (runSlots cmdt line slots st argv argn).1.failure =
      (st.failure || (runSlots cmdt line slots st argv argn).2.2.any flagSetting) := by
  induction slots generalizing st argv argn with
  | nil => simp [runSlots]
  | cons s rest ih =>
    obtain ⟨k, w⟩ := s
    simp only [runSlots, List.any_append]
    rw [ih, scanArgSlot_failure, Bool.or_assoc]

/-- Per line: the failure flag grows exactly by the flag-setting diagnostics
of that line. -/
lemma processWords_failure (st : St) (ws : List String) (line : String) :
    (processWords st ws line).1.failure =
      (st.failure || (processWords st ws line).2.2.any flagSetting) := by
  cases ws with
  | nil => simp [processWords]
  | cons cmd args =>
    by_cases h : cmdtype cmd = CommandType.NONE
    · simp [processWords, h, flagSetting]
    · simp only [processWords, if_neg h]
      exact runSlots_failure ..

/-- Per line, phrased for `processLine`. -/
lemma processLine_failure (st : St) (l : String) :
    (processLine st l).1.failure =
      (st.failure || (processLine st l).2.2.any flagSetting) :=
  processWords_failure ..

/-- Over the whole stream: the failure flag is set exactly when some line
emitted a flag-setting diagnostic. -/
lemma scanLinesAux_failure (st : St) (ls : List String) :
    (scanLinesAux st ls).1.failure =
      (st.failure || (scanLinesAux st ls).2.2.any flagSetting) := by
  induction ls generalizing st with
  | nil => simp [scanLinesAux]
  | cons l rest ih =>
    simp only [scanLinesAux, List.any_append]
    rw [ih, processLine_failure, Bool.or_assoc]

end Lex

namespace Lex

/-- Emission of the node is gated purely on the accumulated failure flag
(and a recognized command word). -/
lemma processWords_isSome (st : St) (cmd : String) (args : List String)
    (line : String) (h : cmdtype cmd ≠ CommandType.NONE) :
    ((processWords st (cmd :: args) line).2.1 ≠ none ↔
      (processWords st (cmd :: args) line).1.failure = false) := by
  simp only [processWords, if_neg h]
  split <;> simp_all

/-- Claim C1 (counterexample): in the stream `pop constant 5` then `add`,
the `add` line passes validation in isolation, yet after the failing first
line it is not appended: the built list is empty. -/
theorem c1_counterexample :
    (processLine st0 "add").2.1 =
      some ⟨CommandType.ARITHMETIC, 1, [CmdArg.op RType.ADD]⟩ ∧
    (scanLinesAux st0 ["pop constant 5", "add"]).2.1 = [] := by
  decide

/-- Claim C1 (amended): a line's Instruction is appended iff the command
word is recognized and the accumulated failure flag — which carries
failures of earlier lines too — is still unset once the line has been
scanned; appending, when it happens, is at the tail in source order. -/
theorem c1_append_requires_clean_flag :
    (∀ (st : St) (ws : List String) (line : String),
      (processWords st ws line).2.1 ≠ none ↔
        ((processWords st ws line).1.failure = false ∧
          ∃ cmd args, ws = cmd :: args ∧ cmdtype cmd ≠ CommandType.NONE)) ∧
    (∀ (st : St) (l : String) (ls : List String),
      (scanLinesAux st (l :: ls)).2.1 =
        (processLine st l).2.1.toList ++ (scanLinesAux (processLine st l).1 ls).2.1) := by
  constructor
  · intro st ws line
    cases ws with
    | nil => simp [processWords]
    | cons cmd args =>
      by_cases h : cmdtype cmd = CommandType.NONE
      · simp [processWords, h]
      · rw [processWords_isSome st cmd args line h]
        constructor
        · intro hf
          exact ⟨hf, cmd, args, rfl, h⟩
        · rintro ⟨hf, _⟩
          exact hf
  · intro st l ls
    rfl

/-- Claim C1 (witness for the amended form): from a clean state, `add` is
appended. -/
theorem c1_witness : (processWords st0 ["add"] "add").2.1 ≠ none :=
  (c1_append_requires_clean_flag.1 st0 ["add"] "add").mpr
    ⟨by decide, "add", [], rfl, by decide⟩

/-- Range predicate of the spec: `[0,7]` for Temp, `[0,32767]` otherwise. -/
def inRangeFor (seg : Memory) (n : Int) : Prop :=
  match seg with
  | .TEMP => 0 ≤ n ∧ n ≤ 7
  | _ => 0 ≤ n ∧ n ≤ 32767

instance (seg : Memory) (n : Int) : Decidable (inRangeFor seg n) := by
  unfold inRangeFor
  cases seg <;> exact inferInstance

/-- Claim C2: on a Push or Pop line whose segment word resolves and whose
numeric word parses, the number-out-of-range failure is recorded exactly
when the operand is outside `[0,7]` for Temp and `[0,32767]` otherwise, and
recording it sets the overall failure flag. -/
theorem c2_pushpop_range (st : St) (cmdw segw numw line : String)
    (seg : Memory) (n : Int)
    (hcmd : cmdw = "push" ∨ cmdw = "pop")
    (hseg : memLookup segw = some seg)
    (hnum : strtoll10 numw = (n, true, false)) :
    (Diag.numberOutOfRange n ∈ (processWords st [cmdw, segw, numw] line).2.2 ↔
      ¬ inRangeFor seg n) ∧
    (¬ inRangeFor seg n →
      (processWords st [cmdw, segw, numw] line).1.failure = true) := by
  rcases hcmd with h | h <;> subst h <;>
    cases seg <;>
      simp [processWords, runSlots, scanArgSlot, hseg, hnum, cmd_fmt, initArgv, initArgn,
        initArgc, argSlot, cmdtype, command, List.range_succ, inRangeFor] <;>
      omega

/-- Claim C2 (witness): `push constant 32767` and `pop temp 7` record no
range failure; `push constant 32768` and `pop temp 8` do, setting the
flag. -/
theorem c2_witness :
    Diag.numberOutOfRange 32768 ∈
      (processWords st0 ["push", "constant", "32768"] "push constant 32768").2.2 ∧
    (processWords st0 ["push", "constant", "32768"] "push constant 32768").1.failure = true ∧
    Diag.numberOutOfRange 8 ∈
      (processWords st0 ["pop", "temp", "8"] "pop temp 8").2.2 ∧
    (processWords st0 ["pop", "temp", "8"] "pop temp 8").1.failure = true ∧
    Diag.numberOutOfRange 32767 ∉
      (processWords st0 ["push", "constant", "32767"] "push constant 32767").2.2 ∧
    Diag.numberOutOfRange 7 ∉
      (processWords st0 ["pop", "temp", "7"] "pop temp 7").2.2 := by
  have h1 := c2_pushpop_range st0 "push" "constant" "32768" "push constant 32768"
    Memory.CONSTANT 32768 (Or.inl rfl) (by decide) (by decide)
  have h2 := c2_pushpop_range st0 "pop" "temp" "8" "pop temp 8"
    Memory.TEMP 8 (Or.inr rfl) (by decide) (by decide)
  have h3 := c2_pushpop_range st0 "push" "constant" "32767" "push constant 32767"
    Memory.CONSTANT 32767 (Or.inl rfl) (by decide) (by decide)
  have h4 := c2_pushpop_range st0 "pop" "temp" "7" "pop temp 7"
    Memory.TEMP 7 (Or.inr rfl) (by decide) (by decide)
  refine ⟨h1.1.mpr (by decide), h1.2 (by decide), h2.1.mpr (by decide), h2.2 (by decide),
    fun hm => (h3.1.mp hm) (by decide), fun hm => (h4.1.mp hm) (by decide)⟩

/-- Claim C3: `pop constant n` records a write-to-constant failure for every
numeric word, sets the overall failure flag, and appends no Instruction; a
`push` to constant never records that failure. -/
theorem c3_pop_constant :
    (∀ (st : St) (numw line : String),
      Diag.writeToConstant ∈ (processWords st ["pop", "constant", numw] line).2.2 ∧
      (processWords st ["pop", "constant", numw] line).1.failure = true ∧
      (processWords st ["pop", "constant", numw] line).2.1 = none) ∧
    (∀ (st : St) (numw line : String),
      Diag.writeToConstant ∉ (processWords st ["push", "constant", numw] line).2.2) := by
  constructor <;> intro st numw line <;>
    rcases hr : strtoll10 numw with ⟨n, c, er⟩ <;>
      simp [processWords, runSlots, scanArgSlot, hr, cmd_fmt, initArgv, initArgn, initArgc,
        argSlot, memLookup, memory, cmdtype, command, List.range_succ]

/-- Claim C3 (witness): the failure at the concrete value 5. -/
theorem c3_witness :
    Diag.writeToConstant ∈
      (processWords st0 ["pop", "constant", "5"] "pop constant 5").2.2 ∧
    (processWords st0 ["pop", "constant", "5"] "pop constant 5").1.failure = true ∧
    Diag.writeToConstant ∉
      (processWords st0 ["push", "constant", "5"] "push constant 5").2.2 :=
  ⟨(c3_pop_constant.1 st0 "5" "pop constant 5").1,
   (c3_pop_constant.1 st0 "5" "pop constant 5").2.1,
   c3_pop_constant.2 st0 "5" "push constant 5"⟩

/-- Lines that leave the scan state clean contribute their node and
diagnostics independently. -/
lemma scanLinesAux_clean (ls : List String)
    (h : ∀ l ∈ ls, (processLine st0 l).1 = st0) :
    scanLinesAux st0 ls =
      (st0, ls.flatMap (fun l => (processLine st0 l).2.1.toList),
        ls.flatMap (fun l => (processLine st0 l).2.2)) := by
  induction ls with
  | nil => simp [scanLinesAux]
  | cons l rest ih =>
    have hl : (processLine st0 l).1 = st0 := h l (by simp)
    simp only [scanLinesAux, hl, List.flatMap_cons]
    rw [ih (fun x hx => h x (by simp [hx]))]

/-- Claim C4: an unrecognized command word yields exactly one
unknown-command diagnostic, no node, and an unchanged state (no failure
flag); a stream whose every line leaves the state clean is scanned to a
normal (non-fatal) result listing the valid lines' instructions in order. -/
theorem c4_unknown_command :
    (∀ (st : St) (cmd : String) (args : List String) (line : String),
      cmdtype cmd = CommandType.NONE →
      processWords st (cmd :: args) line = (st, none, [Diag.unknownCommand cmd])) ∧
    (∀ ls : List String,
      (∀ l ∈ ls, (processLine st0 l).1 = st0) →
      scanLines ls = ScanResult.ok (ls.flatMap (fun l => (processLine st0 l).2.1.toList))
        (ls.flatMap (fun l => (processLine st0 l).2.2))) := by
  constructor
  · intro st cmd args line h
    simp [processWords, h]
  · intro ls h
    have hc := scanLinesAux_clean ls h
    simp only [scanLines, hc]
    rfl

/-- Claim C4 (witness): a stream with one unknown command and one valid line
ends normally with that one unknown-command diagnostic. -/
theorem c4_witness :
    scanLines ["foo", "add"] =
      ScanResult.ok [⟨CommandType.ARITHMETIC, 1, [CmdArg.op RType.ADD]⟩]
        [Diag.unknownCommand "foo"] := by
  have h := c4_unknown_command.2 ["foo", "add"] (by decide)
  exact h.trans (by decide)

/-- Claim C5: the scan ends in the fatal nonzero exit, delivering no list,
exactly when some line recorded a flag-setting failure (missing argument,
invalid segment, write to constant, number parse, number out of range);
otherwise the list is returned normally. -/
theorem c5_failure_flag_fatal (ls : List String) :
    ((scanLinesAux st0 ls).2.2.any flagSetting = true →
      scanLines ls = ScanResult.fatal (scanLinesAux st0 ls).2.2) ∧
    ((scanLinesAux st0 ls).2.2.any flagSetting = false →
      scanLines ls = ScanResult.ok (scanLinesAux st0 ls).2.1
        (scanLinesAux st0 ls).2.2) := by
  have hf := scanLinesAux_failure st0 ls
  constructor <;> intro h
  · have hfail : (scanLinesAux st0 ls).1.failure = true := by
      rw [hf, h]
      simp [st0]
    simp [scanLines, hfail]
  · have hfail : (scanLinesAux st0 ls).1.failure = false := by
      rw [hf, h]
      simp [st0]
    simp [scanLines, hfail]

/-- Claim C5 (witness): one write-to-constant failure makes the run fatal. -/
theorem c5_witness :
    scanLines ["pop constant 5"] = ScanResult.fatal [Diag.writeToConstant] := by
  have h := (c5_failure_flag_fatal ["pop constant 5"]).1 (by decide)
  exact h.trans (by decide)

/-- Claim C6: on Function and Call lines the segment-range validation never
runs: a numeric operand that parses yields no diagnostics at all, leaves
the state unchanged, and (when the accumulated flag is clear) the node
stores the name and the truncated number. -/
theorem c6_no_range_check_function_call (st : St)
    (cmdw namew numw line : String) (n : Int)
    (hcmd : cmdw = "function" ∨ cmdw = "call")
    (hnum : strtoll10 numw = (n, true, false))
    (herr : st.errnoRange = false) :
    (processWords st [cmdw, namew, numw] line).2.2 = [] ∧
    (processWords st [cmdw, namew, numw] line).1 = st ∧
    (st.failure = false →
      (processWords st [cmdw, namew, numw] line).2.1 =
        some ⟨cmdtype cmdw, 2, [CmdArg.name namew, CmdArg.num (toInt32 n)]⟩) := by
  rcases hcmd with h | h <;> subst h <;>
    (simp [processWords, runSlots, scanArgSlot, hnum, herr, cmd_fmt, initArgv, initArgn,
      initArgc, argSlot, cmdtype, command, List.range_succ]
     rw [← herr])

/-- Claim C6 (witness): `function f 40000` passes with no diagnostics and
stores 40000. -/
theorem c6_witness :
    (processWords st0 ["function", "f", "40000"] "function f 40000").2.2 = [] ∧
    (processWords st0 ["function", "f", "40000"] "function f 40000").1 = st0 ∧
    (processWords st0 ["function", "f", "40000"] "function f 40000").2.1 =
      some ⟨CommandType.FUNCTION, 2, [CmdArg.name "f", CmdArg.num 40000]⟩ := by
  have h := c6_no_range_check_function_call st0 "function" "f" "40000"
    "function f 40000" 40000 (Or.inl rfl) (by decide) rfl
  exact ⟨h.1, h.2.1, (h.2.2 rfl).trans (by decide)⟩

/-- Claim C7: every complete valid line stores the shape's argument count
and slot kinds — except `return`, whose zero-filled format row makes the
code store `argc = nargs - 1 = -1` with a null argument array instead of
the claimed 0 arguments. -/
theorem c7_shapes_and_return_argc :
    processLine st0 "return" = (st0, some ⟨CommandType.RETURN, -1, []⟩, []) ∧
    processLine st0 "push constant 5" =
      (st0, some ⟨CommandType.PUSH, 2, [CmdArg.mem .CONSTANT, CmdArg.num 5]⟩, []) ∧
    processLine st0 "pop temp 3" =
      (st0, some ⟨CommandType.POP, 2, [CmdArg.mem .TEMP, CmdArg.num 3]⟩, []) ∧
    processLine st0 "label L" =
      (st0, some ⟨CommandType.LABEL, 1, [CmdArg.name "L"]⟩, []) ∧
    processLine st0 "goto L" =
      (st0, some ⟨CommandType.GOTO, 1, [CmdArg.name "L"]⟩, []) ∧
    processLine st0 "if-goto L" =
      (st0, some ⟨CommandType.IF, 1, [CmdArg.name "L"]⟩, []) ∧
    processLine st0 "function f 2" =
      (st0, some ⟨CommandType.FUNCTION, 2, [CmdArg.name "f", CmdArg.num 2]⟩, []) ∧
    processLine st0 "call f 2" =
      (st0, some ⟨CommandType.CALL, 2, [CmdArg.name "f", CmdArg.num 2]⟩, []) ∧
    processLine st0 "add" =
      (st0, some ⟨CommandType.ARITHMETIC, 1, [CmdArg.op RType.ADD]⟩, []) :=
  ⟨by decide, by decide, by decide, by decide, by decide, by decide, by decide,
   by decide, by decide⟩

/-- Claim C8: on a stream ending in a `//` comment with no trailing newline,
the comment-skip loop of `nextline` never sees a newline and the reader
diverges instead of signalling end-of-stream; with the newline present the
comment line is skipped normally. -/
theorem c8_unterminated_comment_diverges :
    nextline (String.toList "// x") = LineRes.diverge ∧
    nextline (String.toList "// x\nadd") = LineRes.line "add" [] ∧
    scan_stream "// x" = ScanResult.diverge := by
  decide

/-- Count of the teardown actions freeing `argv` arrays. -/
lemma free_count_argv (tl : List TokenList) (i m : Nat) :
    (free_token_list i tl).count (FreeOp.argvArr m) =
      if i ≤ m ∧ m < i + tl.length then 1 else 0 := by
  induction tl generalizing i with
  | nil =>
    simp [free_token_list]
    split_ifs <;> omega
  | cons t rest ih =>
    simp [free_token_list, List.count_cons, ih]
    split_ifs <;> omega

/-- Count of the teardown actions freeing nodes. -/
lemma free_count_node (tl : List TokenList) (i m : Nat) :
    (free_token_list i tl).count (FreeOp.node m) =
      if i ≤ m ∧ m < i + tl.length then 1 else 0 := by
  induction tl generalizing i with
  | nil =>
    simp [free_token_list]
    split_ifs <;> omega
  | cons t rest ih =>
    simp [free_token_list, List.count_cons, ih]
    split_ifs <;> omega

/-- Teardown never frees a name string. -/
lemma free_count_name (tl : List TokenList) (i a b : Nat) :
    (free_token_list i tl).count (FreeOp.nameStr a b) = 0 := by
  induction tl generalizing i with
  | nil => simp [free_token_list]
  | cons t rest ih => simp [free_token_list, List.count_cons, ih]

/-- Claim C9 (counterexample): tearing down the one-node list built from
`label L` frees the node and its `argv` array but issues no free for the
owned name string in slot 0, which the claim requires to be released
exactly once. -/
theorem c9_counterexample :
    (scanLinesAux st0 ["label L"]).2.1 =
      [⟨CommandType.LABEL, 1, [CmdArg.name "L"]⟩] ∧
    nameSlots ⟨CommandType.LABEL, 1, [CmdArg.name "L"]⟩ = [0] ∧
    (free_token_list 0 [⟨CommandType.LABEL, 1, [CmdArg.name "L"]⟩]).count
      (FreeOp.nameStr 0 0) = 0 := by
  decide

/-- Claim C9 (amended): teardown of an N-node list frees each node and each
node's `argv` array exactly once (no double-frees), but never frees any
owned Name string — those leak. -/
theorem c9_teardown_counts (tl : List TokenList) :
    (∀ k, k < tl.length →
      ((free_token_list 0 tl).count (FreeOp.argvArr k) = 1 ∧
       (free_token_list 0 tl).count (FreeOp.node k) = 1)) ∧
    (∀ i j, (free_token_list 0 tl).count (FreeOp.nameStr i j) = 0) := by
  refine ⟨fun k hk => ⟨?_, ?_⟩, fun i j => free_count_name tl 0 i j⟩
  · rw [free_count_argv]
    simp [hk]
  · rw [free_count_node]
    simp [hk]

/-- Claim C9 (witness): counts on a concrete two-node list. -/
theorem c9_witness :
    (free_token_list 0 [⟨CommandType.GOTO, 1, [CmdArg.name "g"]⟩,
      ⟨CommandType.RETURN, -1, []⟩]).count (FreeOp.node 1) = 1 ∧
    (free_token_list 0 [⟨CommandType.GOTO, 1, [CmdArg.name "g"]⟩,
      ⟨CommandType.RETURN, -1, []⟩]).count (FreeOp.nameStr 0 0) = 0 := by
  have h := c9_teardown_counts [⟨CommandType.GOTO, 1, [CmdArg.name "g"]⟩,
    ⟨CommandType.RETURN, -1, []⟩]
  exact ⟨(h.1 1 (by decide)).2, h.2 0 0⟩

/-- Claim C10 (counterexample): after a line whose numeric operand
overflowed `strtoll` (setting `errno` to ERANGE, which is never cleared),
the later line `push constant 5` records a number-parse failure for the
word `5` even though `5` reads as an integer with no overflow. -/
theorem c10_counterexample :
    Diag.numberParse "5" ∈
      (scanLinesAux st0 ["push constant 99999999999999999999",
        "push constant 5"]).2.2 ∧
    strtoll10 "5" = (5, true, false) := by
  decide

/-- Claim C10 (amended): a numeric word stores the 32-bit truncation of its
leading integer, and the number-parse failure is recorded exactly when no
integer can be read at the start, this parse overflows, or a sticky ERANGE
from an earlier overflow is still in `errno`. -/
theorem c10_number_slot (cmdt : CommandType) (line : String) (st : St)
    (argv : List CmdArg) (argn : Nat) (w : String) (n : Int) (c er : Bool)
    (hw : strtoll10 w = (n, c, er)) (hlen : argn < argv.length) :
    (Diag.numberParse w ∈
        (scanArgSlot cmdt line .ARG_NUM st argv argn (some w)).2.2 ↔
      (st.errnoRange = true ∨ er = true ∨ c = false)) ∧
    argSlot (scanArgSlot cmdt line .ARG_NUM st argv argn (some w)).2.1 argn =
      CmdArg.num (toInt32 n) ∧
    (scanArgSlot cmdt line .ARG_NUM st argv argn (some w)).1.errnoRange =
      (st.errnoRange || er) := by
  simp only [scanArgSlot, hw]
  refine ⟨?_, ?_, by simp⟩
  · split_ifs <;> simp_all [or_assoc]
  · exact getD_set_self argv argn _ hlen

/-- Claim C10 (witness): `5x` is accepted, storing 5, with no parse
failure. -/
theorem c10_witness :
    Diag.numberParse "5x" ∉
      (scanArgSlot .PUSH "push constant 5x" .ARG_NUM st0
        [CmdArg.mem .CONSTANT, .uninit] 1 (some "5x")).2.2 ∧
    argSlot (scanArgSlot .PUSH "push constant 5x" .ARG_NUM st0
        [CmdArg.mem .CONSTANT, .uninit] 1 (some "5x")).2.1 1 = CmdArg.num 5 := by
  have h := c10_number_slot CommandType.PUSH "push constant 5x" st0
    [CmdArg.mem .CONSTANT, .uninit] 1 "5x" 5 true false (by decide) (by decide)
  refine ⟨fun hm => ?_, h.2.1.trans (by decide)⟩
  rcases h.1.mp hm with h' | h' | h' <;> simp [st0] at h'

end Lex
